import Mathlib

/-!
Verification of booyangcc/utils: the process runner (cmdutil), the slice
helpers (sliceutil) and the RSA helpers (cryptoutil)

A shallow embedding of `cmdutil/cmd.go`, of `SliceChunk`, `SliceUnique`,
`InSliceIface` from `sliceutil/slice.go`, and of `cryptoutil/rsa.go`.

Modelling choices for `cmdutil`:

* A `*Cmd` handle is owned by one caller, so it is modelled by value; the mutex
  `mu` only serialises calls and is left out: the model is sequential.
* The two `bytes.Buffer`s that `getCommand` allocates are the only buffers a
  handle ever points to.  A pointer to one of them is a `BufRef`; their
  contents live beside the handle in `St`.
* What the operating system answers (`exec.Cmd.Start`, `exec.Cmd.Wait`,
  `syscall.Getpgid`) is an argument of each operation, so every theorem
  quantifies over all answers.
* Every call that leaves the package (logger, spawn, wait, cancel, getpgid,
  kill) is appended to `St.events`, so "is never invoked" can be stated.
* Calling a nil function value panics in Go; an operation that panics
  returns `none`.

Modelling choice for `cryptoutil`: the calls into the Go standard library
(`crypto/rsa`, `crypto/x509`, `encoding/pem`, `encoding/base64`) are the fields
of a structure `Lib` that every function of rsa.go takes as an argument; what
is assumed of them is the structure `Lib.Lawful`.
-/

namespace cmdutil

/-- Contents of a `bytes.Buffer`. -/
abbrev Bytes := List Nat

/-- Go `error` values that are not nil: `errors.New` texts and errors handed
back by the operating system (identified by a number). -/
inductive GoError where
  | text (msg : String)
  | os (code : Nat)
  deriving DecidableEq, Repr

/-- The `*zap.Logger` pointers that are not nil, by identity. -/
abbrev Logger := Nat

/-- The `context.CancelFunc` values that are not nil: the one returned by
`context.WithCancel(context.Background())`. -/
inductive CancelFunc where
  | ctxCancel
  deriving DecidableEq, Repr

/-- The two buffers allocated in `getCommand` (cmd.go:73 and cmd.go:74). -/
inductive BufRef where
  | stdoutBuf
  | stderrBuf
  deriving DecidableEq, Repr

/-- An `io.Writer` interface value as stored in `exec.Cmd.Stdout`/`Stderr`. -/
inductive Writer where
  | nil
  | bytesBuffer (r : BufRef)
  | other
  deriving DecidableEq, Repr

/-- The comma-ok type assertion `w.(*bytes.Buffer)` with the ok flag dropped:
the pointer when the dynamic type is `*bytes.Buffer`, nil otherwise. -/
def Writer.asBytesBuffer : Writer → Option BufRef
  | Writer.bytesBuffer r => some r
  | _ => none

/-- CmdMeta cmd meta. -/
structure CmdMeta where
  JobID : String
  Name : String
  Args : List String
  deriving DecidableEq, Repr

/-- The fields of `exec.Cmd` that the package reads or writes.  `Args` holds
the program name first, as `exec.Command` builds it; `hasCtx` tells
`exec.CommandContext` from `exec.Command`; `Setpgid` is
`SysProcAttr != nil && SysProcAttr.Setpgid`; `Process` is the pid, once
spawned. -/
structure ExecCmd where
  Args : List String
  Dir : String
  hasCtx : Bool
  Setpgid : Bool
  Stdout : Writer
  Stderr : Writer
  Process : Option Nat
  deriving DecidableEq, Repr

/-- Cmd cmd. (The mutex is not modelled.) -/
structure Cmd where
  log : Option Logger
  cmd : ExecCmd
  Cancel : Option CancelFunc
  Stdout : Option BufRef
  Stderr : Option BufRef
  IsSuccess : Bool
  Canceled : Bool
  hasCancelFun : Bool
  deriving DecidableEq, Repr

/-- Calls that leave the package, in the order they are made.  `logInfo l e`
is `l.Info(e.String())`: the text is rendered by the library from the command
`e` as it is at the call (the resolved path when the lookup of the program
succeeded, the name as given otherwise, then the arguments) and is not
modelled further. -/
inductive Event where
  | logInfo (l : Logger) (rendered : ExecCmd)
  | osStart
  | osWait
  | cancel
  | getpgid (pid : Nat)
  | kill (target : Int)
  deriving DecidableEq, Repr

/-- A handle together with the contents of its two buffers and the record of
the outside calls made through it. -/
structure St where
  c : Cmd
  stdoutBuf : Bytes
  stderrBuf : Bytes
  events : List Event
  deriving DecidableEq, Repr

/-- Option option: `type Option func(c *Cmd)`. -/
abbrev CmdOption := Cmd → Cmd

/-- WithDir with dir. -/
def WithDir (dir : String) : CmdOption :=
  fun c => { c with cmd := { c.cmd with Dir := dir } }

/-- WithLog with log. -/
def WithLog (log : Option Logger) : CmdOption :=
  fun c => { c with log := log }

/-- Library call `exec.Command(name, arg...)`: no context, no directory, no
writers, not spawned. -/
def execCommand (name : String) (args : List String) : ExecCmd :=
  { Args := name :: args, Dir := "", hasCtx := false, Setpgid := false,
    Stdout := Writer.nil, Stderr := Writer.nil, Process := none }

/-- Library call `exec.CommandContext(ctx, name, arg...)`. -/
def execCommandContext (name : String) (args : List String) : ExecCmd :=
  { execCommand name args with hasCtx := true }

/-- The shared builder `getCommand` (cmd.go:71-91).  The composite literal
leaves `log`, `Stdout`, `Stderr`, `IsSuccess`, `Canceled` and `hasCancelFun`
at their zero values; the only assignment to `hasCancelFun` stores `false`. -/
def getCommand (command : ExecCmd) (cancel : Option CancelFunc)
    (options : List CmdOption) : St :=
  let command1 : ExecCmd :=
    { command with Setpgid := true,
                   Stdout := Writer.bytesBuffer BufRef.stdoutBuf,
                   Stderr := Writer.bytesBuffer BufRef.stderrBuf }
  let c0 : Cmd :=
    { log := none, cmd := command1, Cancel := cancel, Stdout := none, Stderr := none,
      IsSuccess := false, Canceled := false, hasCancelFun := false }
  let c1 : Cmd := if cancel.isNone then { c0 with hasCancelFun := false } else c0
  let c2 : Cmd := options.foldl (fun c option => option c) c1
  { c := c2, stdoutBuf := [], stderrBuf := [], events := [] }

/-- Runner runner. -/
def Runner (m : CmdMeta) (options : List CmdOption) : St :=
  getCommand (execCommandContext m.Name m.Args) (some CancelFunc.ctxCancel) options

/-- RunnerWithCommand runnerWithCommand. -/
def RunnerWithCommand (name : String) (args : List String) (options : List CmdOption) : St :=
  getCommand (execCommandContext name args) (some CancelFunc.ctxCancel) options

/-- RunnerWithCommandStr runnerWithCommandStr. -/
def RunnerWithCommandStr (cmdStr : String) (options : List CmdOption) : St :=
  getCommand (execCommand "sh" ["-c", cmdStr]) none options

/-- Answer of `exec.Cmd.Start`: the error, and the pid when there is none. -/
structure StartOutcome where
  err : Option GoError
  pid : Nat
  deriving DecidableEq, Repr

/-- Answer of `exec.Cmd.Wait`: the error, and what the process wrote to its
standard output and standard error by the time the call returns. -/
structure WaitOutcome where
  err : Option GoError
  out : Bytes
  errOut : Bytes
  deriving DecidableEq, Repr

/-- Answer of `syscall.Getpgid`. -/
structure PgidOutcome where
  err : Option GoError
  pgid : Int
  deriving DecidableEq, Repr

/-- Bytes written by the process reach a buffer only when the writer it was
spawned with is that buffer. -/
def deliver (w : Writer) (r : BufRef) (old new : Bytes) : Bytes :=
  if w = Writer.bytesBuffer r then old ++ new else old

/-- Start start (cmd.go:94-109). -/
def Start (o : StartOutcome) (s : St) : Option GoError × St :=
  let s1 : St :=
    match s.c.log with
    | some l => { s with events := s.events ++ [Event.logInfo l s.c.cmd] }
    | none => s
  let s2 : St := { s1 with events := s1.events ++ [Event.osStart] }
  match o.err with
  | some err =>
    (some err, { s2 with c := { s2.c with Stderr := s2.c.cmd.Stderr.asBytesBuffer } })
  | none =>
    (none, { s2 with c := { s2.c with cmd := { s2.c.cmd with Process := some o.pid } } })

/-- Wait wait (cmd.go:112-127). -/
def Wait (o : WaitOutcome) (s : St) : Option GoError × St :=
  let s1 : St :=
    { s with events := s.events ++ [Event.osWait],
             stdoutBuf := deliver s.c.cmd.Stdout BufRef.stdoutBuf s.stdoutBuf o.out,
             stderrBuf := deliver s.c.cmd.Stderr BufRef.stderrBuf s.stderrBuf o.errOut }
  match o.err with
  | some err =>
    (some err, { s1 with c := { s1.c with Stderr := s1.c.cmd.Stderr.asBytesBuffer } })
  | none =>
    let c1 : Cmd := if s1.c.Stderr.isNone then { s1.c with IsSuccess := true } else s1.c
    (none, { s1 with c := { c1 with Stdout := c1.cmd.Stdout.asBytesBuffer } })

/-- StartAndWait startAndWait (cmd.go:130-141). -/
def StartAndWait (o : StartOutcome) (w : WaitOutcome) (s : St) : Option GoError × St :=
  match Start o s with
  | (some err, s1) => (some err, s1)
  | (none, s1) =>
    match Wait w s1 with
    | (some err, s2) => (some err, s2)
    | (none, s2) => (none, s2)

/-- The error text of Stop on a handle without a cancel function. -/
def errNoCancel : GoError := GoError.text "this command not have cancel func"

/-- Stop stop (cmd.go:144-161).  `none` is the panic of calling a nil
`Cancel`. -/
def Stop (g : PgidOutcome) (s : St) : Option (Option GoError × St) :=
  if !s.c.hasCancelFun then
    some (some errNoCancel, s)
  else
    let s1 : St := { s with c := { s.c with Canceled := true } }
    match s1.c.Cancel with
    | none => none
    | some _ =>
      let s2 : St := { s1 with events := s1.events ++ [Event.cancel] }
      match s2.c.cmd.Process with
      | some pid =>
        let s3 : St := { s2 with events := s2.events ++ [Event.getpgid pid] }
        if g.err.isNone then
          some (none, { s3 with events := s3.events ++ [Event.kill (-g.pgid)] })
        else
          some (none, s3)
      | none => some (none, s2)

/-- One call on a handle, with the answers of the operating system. -/
inductive Op where
  | start (o : StartOutcome)
  | wait (w : WaitOutcome)
  | startAndWait (o : StartOutcome) (w : WaitOutcome)
  | stop (g : PgidOutcome)
  deriving DecidableEq, Repr

/-- Run one call: its return value and the next state, `none` on a panic. -/
def step (op : Op) (s : St) : Option (Option GoError × St) :=
  match op with
  | Op.start o => some (Start o s)
  | Op.wait w => some (Wait w s)
  | Op.startAndWait o w => some (StartAndWait o w s)
  | Op.stop g => Stop g s

/-- Run a sequence of calls from a state, dropping the return values. -/
def run : List Op → St → Option St
  | [], s => some s
  | op :: ops, s =>
    match step op s with
    | some (_, s1) => run ops s1
    | none => none

/-- The two options the package provides, as data. -/
inductive OptionSpec where
  | withDir (dir : String)
  | withLog (log : Option Logger)
  deriving DecidableEq, Repr

/-- The option function an `OptionSpec` stands for. -/
def OptionSpec.toOption : OptionSpec → CmdOption
  | OptionSpec.withDir dir => WithDir dir
  | OptionSpec.withLog log => WithLog log

/-- The three exported constructors with their arguments. -/
inductive Ctor where
  | runner (m : CmdMeta)
  | runnerWithCommand (name : String) (args : List String)
  | runnerWithCommandStr (cmdStr : String)
  deriving DecidableEq, Repr

/-- The handle a constructor returns for a list of package options. -/
def Ctor.build (k : Ctor) (opts : List OptionSpec) : St :=
  match k with
  | Ctor.runner m => Runner m (opts.map OptionSpec.toOption)
  | Ctor.runnerWithCommand name args => RunnerWithCommand name args (opts.map OptionSpec.toOption)
  | Ctor.runnerWithCommandStr cmdStr => RunnerWithCommandStr cmdStr (opts.map OptionSpec.toOption)

/-- Argument of the last `WithDir` of an option list, if there is one. -/
def lastDir (opts : List OptionSpec) : Option String :=
  (opts.filterMap (fun o => match o with
    | OptionSpec.withDir d => some d
    | OptionSpec.withLog _ => none)).getLast?

/-- Argument of the last `WithLog` of an option list, if there is one. -/
def lastLog (opts : List OptionSpec) : Option (Option Logger) :=
  (opts.filterMap (fun o => match o with
    | OptionSpec.withDir _ => none
    | OptionSpec.withLog l => some l)).getLast?

/-- Written from the amended claim C2, not from the code: whether a call
completes no Wait without error.  A Wait does when the operating-system wait
reports no error; a StartAndWait reaches its Wait only when its Start reports
no error. -/
def Op.noSuccessfulWait : Op → Bool
  | Op.start _ => true
  | Op.wait w => w.err.isSome
  | Op.startAndWait o w => o.err.isSome || w.err.isSome
  | Op.stop _ => true

/-- Whether a sequence of calls has had no successful Wait. -/
def noSuccessfulWait (ops : List Op) : Bool :=
  ops.all Op.noSuccessfulWait

/-- What every handle built by a constructor satisfies, and every call keeps:
the flag `hasCancelFun` is false, `Canceled` is false, and the process writes
to the two buffers of `getCommand`. -/
def WellBuilt (s : St) : Prop :=
  s.c.hasCancelFun = false ∧ s.c.Canceled = false ∧
  s.c.cmd.Stdout = Writer.bytesBuffer BufRef.stdoutBuf ∧
  s.c.cmd.Stderr = Writer.bytesBuffer BufRef.stderrBuf

end cmdutil

namespace sliceutil

/-- InSliceIface checks given interface in interface slice (slice.go:20-28).
The comparison `vv == v` of two interface values is the argument `eq`, with
the left operand first: Go's `==` is not an equality (it is false on a
floating-point NaN compared with itself and true on the two floating-point
zeros), so it is a relation of its own on the values.  A comparison that
panics (two values of one dynamic type that cannot be compared) is outside
the model. -/
def InSliceIface {α : Type} (eq : α → α → Bool) (v : α) : List α → Bool
  | [] => false
  | vv :: sl => if eq vv v then true else InSliceIface eq v sl

/-- The slice expression `slice[i:end_]` for `i ≤ end_ ≤ len(slice)`. -/
def subslice {α : Type} (slice : List α) (i end_ : Nat) : List α :=
  (slice.drop i).take (end_ - i)

/-- The loop of SliceChunk (slice.go:108-111) from the loop variables `i`,
`end_` and the chunks appended so far; `none` when the iteration budget runs
out before the loop condition fails. -/
def SliceChunk.loop {α : Type} (slice : List α) (size : Nat) :
    Nat → Nat → Nat → List (List α) → Option (List (List α))
  | 0, _, _, _ => none
  | fuel + 1, i, end_, chunkslice =>
    if i ≤ slice.length - size then
      SliceChunk.loop slice size fuel (i + size) (end_ + size)
        (chunkslice ++ [subslice slice i end_])
    else
      some chunkslice

/-- SliceChunk separates one slice to some sized slice (slice.go:101-113), for
sizes that are not negative.  The loop is entered only when
`size < len(slice)`, so `len(slice) - size` is a subtraction of naturals; it
gets `len(slice) + 1` iterations, more than it can use when `size ≥ 1`. -/
def SliceChunk {α : Type} (slice : List α) (size : Nat) : Option (List (List α)) :=
  if size ≥ slice.length then
    some [slice]
  else
    SliceChunk.loop slice size (slice.length + 1) 0 size []

/-- SliceUnique cleans repeated values in slice (slice.go:115-123), over the
comparison `eq` of InSliceIface. -/
def SliceUnique {α : Type} (eq : α → α → Bool) (slice : List α) : List α :=
  slice.foldl (fun uniqueslice v =>
    if !InSliceIface eq v uniqueslice then uniqueslice ++ [v] else uniqueslice) []

/-- Written from the claim, not from the code: the input with every position
dropped whose value is `==` to the value at an earlier position (the earlier
value is the left operand). -/
def keepFirstOccurrences {α : Type} (eq : α → α → Bool) (slice : List α) : List α :=
  (List.range slice.length).filterMap (fun i =>
    match slice[i]? with
    | some v => if (slice.take i).any (fun u => eq u v) then none else some v
    | none => none)

/-- Some of the values an `interface{}` holds, for concrete inputs: integers,
strings and the floating-point NaN. -/
inductive GoValue where
  | int (n : Int)
  | str (s : String)
  | nan
  deriving DecidableEq, Repr

/-- Go's `==` on these interface values: true on two integers or two strings
that are the same, false on values of different dynamic types and false
whenever an operand is NaN. -/
def GoValue.eq : GoValue → GoValue → Bool
  | GoValue.int a, GoValue.int b => decide (a = b)
  | GoValue.str a, GoValue.str b => decide (a = b)
  | _, _ => false

end sliceutil

namespace cryptoutil

/-- Byte slices, `[]byte`. -/
abbrev Bytes := List Nat

/-- Go strings: a Go string is a sequence of bytes, and the conversions
`[]byte(s)` and `string(b)` keep the bytes, so both are the identity here. -/
abbrev GoString := List Nat

/-- Go `error` values that are not nil: `errors.New` texts and errors of the
standard library (identified by a number). -/
inductive GoError where
  | text (msg : String)
  | lib (code : Nat)
  deriving DecidableEq, Repr

/-- The fields of `pem.Block` that rsa.go sets or reads (no headers are used). -/
structure PemBlock where
  Type_ : String
  Bytes : Bytes
  deriving DecidableEq, Repr

/-- The `any` value `x509.ParsePKIXPublicKey` returns: an `*rsa.PublicKey` or a
key of another algorithm. -/
inductive PKIXKey (Pub : Type) where
  | rsaPublicKey (pub : Pub)
  | other

/-- The calls of the Go standard library that rsa.go makes, over the types
`Priv` of `*rsa.PrivateKey` and `Pub` of `*rsa.PublicKey`.  They are not code
of the repository, so they are arguments of the model.  The first argument of
`rsaGenerateKey`, `rsaEncryptPKCS1v15` and `rsaDecryptPKCS1v15` is what
`rand.Reader` yields during the call; a result is `Except.error` for a non-nil
error; `pemDecode` is `none` for a nil block (the rest it also returns is not
used). -/
structure Lib (Priv Pub : Type) where
  rsaGenerateKey : Nat → Int → Except GoError Priv
  publicKey : Priv → Pub
  size : Pub → Nat
  x509MarshalPKCS1PrivateKey : Priv → Bytes
  x509ParsePKCS1PrivateKey : Bytes → Except GoError Priv
  x509MarshalPKIXPublicKey : Pub → Except GoError Bytes
  x509ParsePKIXPublicKey : Bytes → Except GoError (PKIXKey Pub)
  pemEncodeToMemory : PemBlock → Bytes
  pemDecode : Bytes → Option PemBlock
  rsaEncryptPKCS1v15 : Nat → Pub → Bytes → Except GoError Bytes
  rsaDecryptPKCS1v15 : Nat → Priv → Bytes → Except GoError Bytes
  base64EncodeToString : Bytes → GoString
  base64DecodeString : GoString → Except GoError Bytes

/-- RSAEncrypt (rsa.go:36-55). -/
def RSAEncrypt {Priv Pub : Type} (L : Lib Priv Pub) (rnd : Nat) (origData publicKey : Bytes) :
    Except GoError Bytes :=
  match L.pemDecode publicKey with
  | none => Except.error (GoError.text "public key error")
  | some block =>
    match L.x509ParsePKIXPublicKey block.Bytes with
    | Except.error err => Except.error err
    | Except.ok pubInterface =>
      match pubInterface with
      | PKIXKey.other => Except.error (GoError.text "decode public key error")
      | PKIXKey.rsaPublicKey pub => L.rsaEncryptPKCS1v15 rnd pub origData

/-- RSADecrypt (rsa.go:57-68). -/
def RSADecrypt {Priv Pub : Type} (L : Lib Priv Pub) (rnd : Nat) (ciphertext privateKey : Bytes) :
    Except GoError Bytes :=
  match L.pemDecode privateKey with
  | none => Except.error (GoError.text "private key error")
  | some block =>
    match L.x509ParsePKCS1PrivateKey block.Bytes with
    | Except.error err => Except.error err
    | Except.ok priv => L.rsaDecryptPKCS1v15 rnd priv ciphertext

/-- RSAEncryptWithString (rsa.go:14-21).  On an error the Go function returns
the empty string beside it; `Except.error` carries the error alone. -/
def RSAEncryptWithString {Priv Pub : Type} (L : Lib Priv Pub) (rnd : Nat) (origData publicKey : GoString) :
    Except GoError GoString :=
  match RSAEncrypt L rnd origData publicKey with
  | Except.error err => Except.error err
  | Except.ok encryptData => Except.ok (L.base64EncodeToString encryptData)

/-- RSADecryptWithString (rsa.go:23-34). -/
def RSADecryptWithString {Priv Pub : Type} (L : Lib Priv Pub) (rnd : Nat) (ciphertext privateKey : GoString) :
    Except GoError GoString :=
  match L.base64DecodeString ciphertext with
  | Except.error err => Except.error err
  | Except.ok ciphertextB =>
    match RSADecrypt L rnd ciphertextB privateKey with
    | Except.error err => Except.error err
    | Except.ok decryptData => Except.ok decryptData

/-- GenerateRSAKey (rsa.go:70-98): the private key and the public key, both
PEM encoded, or the error. -/
def GenerateRSAKey {Priv Pub : Type} (L : Lib Priv Pub) (rnd : Nat) (bits : Int) :
    Except GoError (Bytes × Bytes) :=
  match L.rsaGenerateKey rnd bits with
  | Except.error err => Except.error err
  | Except.ok priv =>
    let privStream := L.x509MarshalPKCS1PrivateKey priv
    let block : PemBlock := { Type_ := "RSA Private Key", Bytes := privStream }
    let privateKey := L.pemEncodeToMemory block
    let pub := L.publicKey priv
    match L.x509MarshalPKIXPublicKey pub with
    | Except.error err => Except.error err
    | Except.ok pubStream =>
      let block : PemBlock := { Type_ := "RSA Public Key", Bytes := pubStream }
      let publicKey := L.pemEncodeToMemory block
      Except.ok (privateKey, publicKey)

/-- The hypotheses of the round trip on the library, each for the keys that
`rsa.GenerateKey` returns: `pem.Decode` finds in what `pem.EncodeToMemory`
wrote for either of the two block types a block with the same bytes;
`x509.ParsePKCS1PrivateKey` inverts `x509.MarshalPKCS1PrivateKey`;
`x509.ParsePKIXPublicKey` returns the `*rsa.PublicKey` that
`x509.MarshalPKIXPublicKey` was given; `rsa.EncryptPKCS1v15` returns no error on
a message of at most `pub.Size() - 11` bytes and `rsa.DecryptPKCS1v15` gives the
message back, whatever the random bytes; `DecodeString` inverts
`EncodeToString`. -/
structure Lib.Lawful {Priv Pub : Type} (L : Lib Priv Pub) : Prop where
  pem_private : ∀ der, ∃ block,
    L.pemDecode (L.pemEncodeToMemory { Type_ := "RSA Private Key", Bytes := der }) = some block ∧
    block.Bytes = der
  pem_public : ∀ der, ∃ block,
    L.pemDecode (L.pemEncodeToMemory { Type_ := "RSA Public Key", Bytes := der }) = some block ∧
    block.Bytes = der
  pkcs1_private : ∀ rnd bits priv, L.rsaGenerateKey rnd bits = Except.ok priv →
    L.x509ParsePKCS1PrivateKey (L.x509MarshalPKCS1PrivateKey priv) = Except.ok priv
  pkix_public : ∀ rnd bits priv der, L.rsaGenerateKey rnd bits = Except.ok priv →
    L.x509MarshalPKIXPublicKey (L.publicKey priv) = Except.ok der →
    L.x509ParsePKIXPublicKey der = Except.ok (PKIXKey.rsaPublicKey (L.publicKey priv))
  pkcs1v15 : ∀ rnd bits priv rndE rndD msg, L.rsaGenerateKey rnd bits = Except.ok priv →
    msg.length + 11 ≤ L.size (L.publicKey priv) →
    ∃ c, L.rsaEncryptPKCS1v15 rndE (L.publicKey priv) msg = Except.ok c ∧
      L.rsaDecryptPKCS1v15 rndD priv c = Except.ok msg
  base64 : ∀ b, L.base64DecodeString (L.base64EncodeToString b) = Except.ok b

/-- Private keys of `toyLib`. -/
structure ToyPrivateKey where
  size : Nat
  shift : Nat
  deriving DecidableEq, Repr

/-- Public keys of `toyLib`. -/
structure ToyPublicKey where
  size : Nat
  shift : Nat
  deriving DecidableEq, Repr

/-- A small stand-in for the library, not a cipher: keys of `bits / 8` bytes,
encodings that put a tag byte in front, and an encryption that adds the key to
every byte behind one random byte.  It shows that the hypotheses `Lib.Lawful`
can be met together. -/
def toyLib : Lib ToyPrivateKey ToyPublicKey where
  rsaGenerateKey := fun rnd bits =>
    if bits < 96 then Except.error (GoError.lib 1)
    else Except.ok { size := bits.toNat / 8, shift := rnd % 256 }
  publicKey := fun priv => { size := priv.size, shift := priv.shift }
  size := fun pub => pub.size
  x509MarshalPKCS1PrivateKey := fun priv => [48, priv.size, priv.shift]
  x509ParsePKCS1PrivateKey := fun der =>
    match der with
    | [48, size, shift] => Except.ok { size := size, shift := shift }
    | _ => Except.error (GoError.lib 2)
  x509MarshalPKIXPublicKey := fun pub => Except.ok [49, pub.size, pub.shift]
  x509ParsePKIXPublicKey := fun der =>
    match der with
    | [49, size, shift] => Except.ok (PKIXKey.rsaPublicKey { size := size, shift := shift })
    | [50, _] => Except.ok PKIXKey.other
    | _ => Except.error (GoError.lib 3)
  pemEncodeToMemory := fun block => 45 :: block.Type_.length :: block.Bytes
  pemDecode := fun data =>
    match data with
    | 45 :: _ :: der => some { Type_ := "", Bytes := der }
    | _ => none
  rsaEncryptPKCS1v15 := fun rnd pub msg =>
    if msg.length + 11 ≤ pub.size then Except.ok (rnd :: msg.map (fun b => b + pub.shift))
    else Except.error (GoError.lib 4)
  rsaDecryptPKCS1v15 := fun _ priv c =>
    match c with
    | _ :: body => Except.ok (body.map (fun b => b - priv.shift))
    | [] => Except.error (GoError.lib 5)
  base64EncodeToString := fun b => b.map (fun x => x + 1)
  base64DecodeString := fun s =>
    if s.all (fun x => decide (0 < x)) then Except.ok (s.map (fun x => x - 1))
    else Except.error (GoError.lib 6)

end cryptoutil

namespace cmdutil

/-! ## Shared lemmas about the model -/

theorem lastDir_cons_withDir (d : String) (opts : List OptionSpec) :
    lastDir (OptionSpec.withDir d :: opts) = some ((lastDir opts).getD d) := by
  simp [lastDir, List.getLast?_cons]

theorem lastDir_cons_withLog (l : Option Logger) (opts : List OptionSpec) :
    lastDir (OptionSpec.withLog l :: opts) = lastDir opts := by
  simp [lastDir]

theorem lastLog_cons_withLog (l : Option Logger) (opts : List OptionSpec) :
    lastLog (OptionSpec.withLog l :: opts) = some ((lastLog opts).getD l) := by
  simp [lastLog, List.getLast?_cons]

theorem lastLog_cons_withDir (d : String) (opts : List OptionSpec) :
    lastLog (OptionSpec.withDir d :: opts) = lastLog opts := by
  simp [lastLog]

/-- Applying a list of package options to a handle rewrites its logger and
its working directory and nothing else. -/
theorem foldl_options (opts : List OptionSpec) (c : Cmd) :
    (opts.map OptionSpec.toOption).foldl (fun c option => option c) c =
      { c with log := (lastLog opts).getD c.log,
               cmd := { c.cmd with Dir := (lastDir opts).getD c.cmd.Dir } } := by
  induction opts generalizing c with
  | nil => rfl
  | cons o opts ih =>
    cases o with
    | withDir d =>
      simp only [List.map_cons, List.foldl_cons, ih, OptionSpec.toOption, WithDir,
        lastDir_cons_withDir, lastLog_cons_withDir, Option.getD_some]
    | withLog l =>
      simp only [List.map_cons, List.foldl_cons, ih, OptionSpec.toOption, WithLog,
        lastDir_cons_withLog, lastLog_cons_withLog, Option.getD_some]

/-- The handle `getCommand` returns for package options, field by field. -/
theorem getCommand_eq (command : ExecCmd) (cancel : Option CancelFunc)
    (opts : List OptionSpec) :
    getCommand command cancel (opts.map OptionSpec.toOption) =
      { c := { log := (lastLog opts).getD none,
               cmd := { command with Dir := (lastDir opts).getD command.Dir,
                                     Setpgid := true,
                                     Stdout := Writer.bytesBuffer BufRef.stdoutBuf,
                                     Stderr := Writer.bytesBuffer BufRef.stderrBuf },
               Cancel := cancel, Stdout := none, Stderr := none, IsSuccess := false,
               Canceled := false, hasCancelFun := false },
        stdoutBuf := [], stderrBuf := [], events := [] } := by
  unfold getCommand
  simp only [foldl_options]
  cases cancel <;> rfl

/-- The handle `getCommand` returns when no option is given. -/
theorem getCommand_nil (command : ExecCmd) (cancel : Option CancelFunc) :
    getCommand command cancel [] =
      { c := { log := none,
               cmd := { command with Setpgid := true,
                                     Stdout := Writer.bytesBuffer BufRef.stdoutBuf,
                                     Stderr := Writer.bytesBuffer BufRef.stderrBuf },
               Cancel := cancel, Stdout := none, Stderr := none, IsSuccess := false,
               Canceled := false, hasCancelFun := false },
        stdoutBuf := [], stderrBuf := [], events := [] } := by
  unfold getCommand
  cases cancel <;> rfl

theorem build_wellBuilt (k : Ctor) (opts : List OptionSpec) : WellBuilt (k.build opts) := by
  cases k <;>
    simp [Ctor.build, Runner, RunnerWithCommand, RunnerWithCommandStr, getCommand_eq, WellBuilt]

/-- The fields of a fresh handle that the options cannot touch. -/
theorem build_fresh (k : Ctor) (opts : List OptionSpec) :
    (k.build opts).c.Stdout = none ∧ (k.build opts).c.Stderr = none ∧
    (k.build opts).c.IsSuccess = false ∧ (k.build opts).stdoutBuf = [] ∧
    (k.build opts).stderrBuf = [] ∧ (k.build opts).events = [] := by
  cases k <;>
    simp [Ctor.build, Runner, RunnerWithCommand, RunnerWithCommandStr, getCommand_eq]

theorem Start_fst (o : StartOutcome) (s : St) : (Start o s).1 = o.err := by
  unfold Start
  cases o.err <;> rfl

theorem Wait_fst (w : WaitOutcome) (s : St) : (Wait w s).1 = w.err := by
  unfold Wait
  cases w.err <;> rfl

/-- Start leaves everything but the event record, the visible `Stderr` and the
pid as it was. -/
theorem Start_frame (o : StartOutcome) (s : St) :
    (Start o s).2.c.log = s.c.log ∧ (Start o s).2.c.Cancel = s.c.Cancel ∧
    (Start o s).2.c.Stdout = s.c.Stdout ∧ (Start o s).2.c.IsSuccess = s.c.IsSuccess ∧
    (Start o s).2.c.Canceled = s.c.Canceled ∧
    (Start o s).2.c.hasCancelFun = s.c.hasCancelFun ∧
    (Start o s).2.c.cmd.Stdout = s.c.cmd.Stdout ∧
    (Start o s).2.c.cmd.Stderr = s.c.cmd.Stderr ∧
    (Start o s).2.stdoutBuf = s.stdoutBuf ∧ (Start o s).2.stderrBuf = s.stderrBuf := by
  unfold Start
  cases o.err <;> cases hl : s.c.log <;> simp [hl]

/-- A successful Start leaves the visible `Stderr` as it was. -/
theorem Start_ok_Stderr (o : StartOutcome) (s : St) (h : o.err = none) :
    (Start o s).2.c.Stderr = s.c.Stderr := by
  unfold Start
  rw [h]
  cases s.c.log <;> rfl

/-- Start makes no call to the operating system's wait. -/
theorem Start_count_osWait (o : StartOutcome) (s : St) :
    (Start o s).2.events.count Event.osWait = s.events.count Event.osWait := by
  unfold Start
  cases o.err <;> cases s.c.log <;> simp [List.count_append, List.count_cons]

theorem Start_wellBuilt (o : StartOutcome) (s : St) (h : WellBuilt s) :
    WellBuilt (Start o s).2 := by
  obtain ⟨_, _, _, _, h5, h6, h7, h8, _, _⟩ := Start_frame o s
  exact ⟨h6.trans h.1, h5.trans h.2.1, h7.trans h.2.2.1, h8.trans h.2.2.2⟩

theorem Wait_wellBuilt (w : WaitOutcome) (s : St) (h : WellBuilt s) :
    WellBuilt (Wait w s).2 := by
  obtain ⟨h1, h2, h3, h4⟩ := h
  unfold Wait WellBuilt
  cases w.err with
  | some e => exact ⟨h1, h2, h3, h4⟩
  | none =>
    cases hs : s.c.Stderr <;> simp [hs, h1, h2, h3, h4]

theorem StartAndWait_eq (o : StartOutcome) (w : WaitOutcome) (s : St) :
    StartAndWait o w s = if (Start o s).1.isSome then Start o s else Wait w (Start o s).2 := by
  unfold StartAndWait
  rcases hS : Start o s with ⟨r, s1⟩
  cases r with
  | some e => rfl
  | none =>
    rcases hW : Wait w s1 with ⟨r2, s2⟩
    cases r2 <;> simp [hW]

theorem StartAndWait_wellBuilt (o : StartOutcome) (w : WaitOutcome) (s : St)
    (h : WellBuilt s) : WellBuilt (StartAndWait o w s).2 := by
  rw [StartAndWait_eq]
  split
  · exact Start_wellBuilt o s h
  · exact Wait_wellBuilt w _ (Start_wellBuilt o s h)

/-- On a handle whose `hasCancelFun` is false, Stop returns the error and the
state it was given. -/
theorem Stop_of_wellBuilt (g : PgidOutcome) (s : St) (h : WellBuilt s) :
    Stop g s = some (some errNoCancel, s) := by
  unfold Stop
  simp [h.1]

theorem step_wellBuilt (op : Op) (s : St) (h : WellBuilt s) :
    ∃ r s1, step op s = some (r, s1) ∧ WellBuilt s1 := by
  cases op with
  | start o => exact ⟨_, _, rfl, Start_wellBuilt o s h⟩
  | wait w => exact ⟨_, _, rfl, Wait_wellBuilt w s h⟩
  | startAndWait o w => exact ⟨_, _, rfl, StartAndWait_wellBuilt o w s h⟩
  | stop g => exact ⟨_, _, Stop_of_wellBuilt g s h, h⟩

/-- Every sequence of calls on a well-built handle runs to the end (no call
panics) and ends in a well-built state. -/
theorem run_wellBuilt (ops : List Op) (s : St) (h : WellBuilt s) :
    ∃ s1, run ops s = some s1 ∧ WellBuilt s1 := by
  induction ops generalizing s with
  | nil => exact ⟨s, rfl, h⟩
  | cons op ops ih =>
    obtain ⟨r, s1, hstep, h1⟩ := step_wellBuilt op s h
    obtain ⟨s2, hrun, h2⟩ := ih s1 h1
    exact ⟨s2, by simp [run, hstep, hrun], h2⟩

/-- A Wait whose operating-system wait reports no error sets `IsSuccess` when
the visible `Stderr` is nil and stores the stdout writer in `Stdout`. -/
theorem Wait_ok (w : WaitOutcome) (s : St) (h : w.err = none) :
    (Wait w s).2.c.IsSuccess = (if s.c.Stderr.isNone then true else s.c.IsSuccess) ∧
    (Wait w s).2.c.Stdout = s.c.cmd.Stdout.asBytesBuffer ∧
    (Wait w s).2.c.Stderr = s.c.Stderr := by
  unfold Wait
  rw [h]
  cases hs : s.c.Stderr <;> simp [hs]

/-- A Wait whose operating-system wait reports an error stores the stderr
writer in `Stderr` and leaves `IsSuccess` and `Stdout` as they were. -/
theorem Wait_err (w : WaitOutcome) (s : St) (e : GoError) (h : w.err = some e) :
    (Wait w s).2.c.IsSuccess = s.c.IsSuccess ∧
    (Wait w s).2.c.Stdout = s.c.Stdout ∧
    (Wait w s).2.c.Stderr = s.c.cmd.Stderr.asBytesBuffer := by
  unfold Wait
  rw [h]
  exact ⟨rfl, rfl, rfl⟩

/-- Wait leaves the writers of the process as they were and appends what the
process wrote to the buffers they point to. -/
theorem Wait_buffers (w : WaitOutcome) (s : St) :
    (Wait w s).2.c.cmd.Stdout = s.c.cmd.Stdout ∧
    (Wait w s).2.c.cmd.Stderr = s.c.cmd.Stderr ∧
    (Wait w s).2.stdoutBuf = deliver s.c.cmd.Stdout BufRef.stdoutBuf s.stdoutBuf w.out ∧
    (Wait w s).2.stderrBuf = deliver s.c.cmd.Stderr BufRef.stderrBuf s.stderrBuf w.errOut := by
  unfold Wait
  cases w.err with
  | some e => exact ⟨rfl, rfl, rfl, rfl⟩
  | none => cases hs : s.c.Stderr <;> simp [hs]

/-! ## The claims about the process runner -/

/-- C1, evaluated on the code.  The claim has Stop return nil and set
`Canceled` on every handle built by Runner or RunnerWithCommand.  On the handle
`Runner(&CmdMeta{"job-1", "sleep", ["5"]})`, which holds a cancel function and
whose process has been spawned, Stop returns the error "this command not have
cancel func", calls nothing and leaves the handle, `Canceled` included, as it
was: `getCommand` never stores true in `hasCancelFun`.  The same on the fresh
handle `RunnerWithCommand("sleep", ["5"])`. -/
theorem C1_Stop_on_Runner_handle :
    (Runner ⟨"job-1", "sleep", ["5"]⟩ []).c.Cancel = some CancelFunc.ctxCancel ∧
    (Start ⟨none, 4242⟩ (Runner ⟨"job-1", "sleep", ["5"]⟩ [])).1 = none ∧
    Stop ⟨none, 4242⟩ (Start ⟨none, 4242⟩ (Runner ⟨"job-1", "sleep", ["5"]⟩ [])).2 =
      some (some errNoCancel, (Start ⟨none, 4242⟩ (Runner ⟨"job-1", "sleep", ["5"]⟩ [])).2) ∧
    (Start ⟨none, 4242⟩ (Runner ⟨"job-1", "sleep", ["5"]⟩ [])).2.c.Canceled = false ∧
    Stop ⟨none, 4242⟩ (RunnerWithCommand "sleep" ["5"] []) =
      some (some errNoCancel, RunnerWithCommand "sleep" ["5"] []) ∧
    (RunnerWithCommand "sleep" ["5"] []).c.Canceled = false := by
  decide

/-- C2 as stated fails.  After `RunnerWithCommandStr("echo out; exit 1")`, a
successful Start and a Wait whose operating-system wait reports an error, the
process has written to the attached stdout buffer, yet the visible `Stdout` is
nil, not that buffer. -/
theorem C2_Wait_error_leaves_Stdout_nil :
    (Start ⟨none, 100⟩ (RunnerWithCommandStr "echo out; exit 1" [])).1 = none ∧
    (Wait ⟨some (GoError.os 1), [111, 117, 116, 10], []⟩
      (Start ⟨none, 100⟩ (RunnerWithCommandStr "echo out; exit 1" [])).2).2.c.cmd.Stdout
        = Writer.bytesBuffer BufRef.stdoutBuf ∧
    (Wait ⟨some (GoError.os 1), [111, 117, 116, 10], []⟩
      (Start ⟨none, 100⟩ (RunnerWithCommandStr "echo out; exit 1" [])).2).2.stdoutBuf
        = [111, 117, 116, 10] ∧
    (Wait ⟨some (GoError.os 1), [111, 117, 116, 10], []⟩
      (Start ⟨none, 100⟩ (RunnerWithCommandStr "echo out; exit 1" [])).2).2.c.Stdout = none ∧
    ¬ ((Wait ⟨some (GoError.os 1), [111, 117, 116, 10], []⟩
      (Start ⟨none, 100⟩ (RunnerWithCommandStr "echo out; exit 1" [])).2).2.c.Stdout
        = some BufRef.stdoutBuf) := by
  decide

/-- One call changes the visible `Stdout` only by a Wait without error, which
stores the stdout buffer. -/
theorem step_Stdout (op : Op) (s : St) (h : WellBuilt s) :
    ∃ r s1, step op s = some (r, s1) ∧ WellBuilt s1 ∧
      s1.c.Stdout =
        if op.noSuccessfulWait then s.c.Stdout else some BufRef.stdoutBuf := by
  have hW : ∀ (w : WaitOutcome) (t : St), WellBuilt t →
      (Wait w t).2.c.Stdout =
        if w.err.isSome then t.c.Stdout else some BufRef.stdoutBuf := by
    intro w t ht
    cases hw : w.err with
    | none =>
      rw [(Wait_ok w t hw).2.1, ht.2.2.1]
      rfl
    | some e =>
      rw [(Wait_err w t e hw).2.1]
      rfl
  cases op with
  | start o =>
    exact ⟨_, _, rfl, Start_wellBuilt o s h, (Start_frame o s).2.2.1⟩
  | wait w =>
    exact ⟨_, _, rfl, Wait_wellBuilt w s h, hW w s h⟩
  | startAndWait o w =>
    refine ⟨(StartAndWait o w s).1, (StartAndWait o w s).2, rfl,
      StartAndWait_wellBuilt o w s h, ?_⟩
    have hS : (Start o s).2.c.Stdout = s.c.Stdout := (Start_frame o s).2.2.1
    rw [StartAndWait_eq, Start_fst]
    cases ho : o.err with
    | some e => simpa [Op.noSuccessfulWait, ho] using hS
    | none =>
      have h2 := hW w _ (Start_wellBuilt o s h)
      rw [hS] at h2
      simpa [Op.noSuccessfulWait, ho] using h2
  | stop g =>
    exact ⟨_, _, Stop_of_wellBuilt g s h, h, rfl⟩

/-- After a sequence of calls the visible `Stdout` is what it was when the
sequence has had no successful Wait, and the stdout buffer otherwise. -/
theorem run_Stdout (ops : List Op) (s : St) (h : WellBuilt s) :
    ∃ s1, run ops s = some s1 ∧ WellBuilt s1 ∧
      s1.c.Stdout =
        if noSuccessfulWait ops then s.c.Stdout else some BufRef.stdoutBuf := by
  induction ops generalizing s with
  | nil => exact ⟨s, rfl, h, rfl⟩
  | cons op ops ih =>
    obtain ⟨r, s1, hstep, h1, hO1⟩ := step_Stdout op s h
    obtain ⟨s2, hrun, h2, hO2⟩ := ih s1 h1
    refine ⟨s2, by simp [run, hstep, hrun], h2, ?_⟩
    rw [hO2, hO1]
    unfold noSuccessfulWait at *
    cases hop : op.noSuccessfulWait <;> cases hops : ops.all Op.noSuccessfulWait <;>
      simp [List.all_cons, hop, hops]

/-- C2, amended.  In every state a handle built by a constructor can reach
(after a successful Start in particular), the visible `Stdout` is nil when the
handle has had no successful Wait and the stdout buffer otherwise; Wait returns
what the operating-system wait reports; when that is no error, the visible
`Stdout` afterwards is the buffer attached as the standard output of the
process, which by then holds what the process wrote; when it is an error,
`Stdout` is left as it was. -/
theorem C2_Wait_copies_Stdout_on_success (k : Ctor) (opts : List OptionSpec)
    (ops : List Op) (w : WaitOutcome) :
    ∃ s, run ops (k.build opts) = some s ∧
      s.c.Stdout = (if noSuccessfulWait ops then none else some BufRef.stdoutBuf) ∧
      (Wait w s).1 = w.err ∧
      (Wait w s).2.c.cmd.Stdout = Writer.bytesBuffer BufRef.stdoutBuf ∧
      (Wait w s).2.stdoutBuf = s.stdoutBuf ++ w.out ∧
      (Wait w s).2.c.Stdout =
        if w.err = none then some BufRef.stdoutBuf else s.c.Stdout := by
  obtain ⟨s, hrun, hs, hO⟩ := run_Stdout ops (k.build opts) (build_wellBuilt k opts)
  rw [(build_fresh k opts).1] at hO
  obtain ⟨b1, _, b3, _⟩ := Wait_buffers w s
  refine ⟨s, hrun, hO, Wait_fst w s, b1.trans hs.2.2.1, ?_, ?_⟩
  · rw [b3, hs.2.2.1]
    simp [deliver]
  · cases hw : w.err with
    | none =>
      rw [(Wait_ok w s hw).2.1, hs.2.2.1]
      rfl
    | some e =>
      rw [(Wait_err w s e hw).2.1]
      simp

/-- C3.  For every command string and every list of package options, in every
state the handle built by RunnerWithCommandStr reaches through Start, Wait,
StartAndWait and Stop calls (whatever the operating system answers, and no
call panics), Stop returns the error "this command not have cancel func" and
the state it was given: no field changes, nothing is called, and `Canceled`
is false. -/
theorem C3_Stop_on_shell_string_handle (cmdStr : String) (opts : List OptionSpec)
    (ops : List Op) (g : PgidOutcome) :
    ∃ s, run ops (RunnerWithCommandStr cmdStr (opts.map OptionSpec.toOption)) = some s ∧
      Stop g s = some (some (GoError.text "this command not have cancel func"), s) ∧
      s.c.Canceled = false := by
  obtain ⟨s, hrun, hs⟩ := run_wellBuilt ops _
    (build_wellBuilt (Ctor.runnerWithCommandStr cmdStr) opts)
  exact ⟨s, hrun, Stop_of_wellBuilt g s hs, hs.2.1⟩

/-- C4.  For a handle fresh from any of the three constructors, when the
spawn succeeds and the operating-system wait reports no error with nothing
written to stderr, StartAndWait returns nil and `IsSuccess` is true. -/
theorem C4_StartAndWait_clean_exit (k : Ctor) (opts : List OptionSpec)
    (o : StartOutcome) (w : WaitOutcome)
    (ho : o.err = none) (hw : w.err = none) (_he : w.errOut = []) :
    (StartAndWait o w (k.build opts)).1 = none ∧
    (StartAndWait o w (k.build opts)).2.c.IsSuccess = true := by
  have hS : (Start o (k.build opts)).1 = none := (Start_fst o _).trans ho
  have hE : (Start o (k.build opts)).2.c.Stderr = none :=
    (Start_ok_Stderr o _ ho).trans (build_fresh k opts).2.1
  rw [StartAndWait_eq, hS]
  refine ⟨(Wait_fst w _).trans hw, ?_⟩
  simp only [Option.isSome_none, Bool.false_eq_true, if_false]
  rw [(Wait_ok w _ hw).1, hE]
  rfl

/-- C4 at a concrete handle and concrete answers of the operating system. -/
theorem C4_StartAndWait_clean_exit_witness :
    (StartAndWait ⟨none, 100⟩ ⟨none, [104, 105, 10], []⟩
        (Ctor.build (Ctor.runnerWithCommand "echo" ["hi"]) [OptionSpec.withDir "/tmp"])).1 = none ∧
    (StartAndWait ⟨none, 100⟩ ⟨none, [104, 105, 10], []⟩
        (Ctor.build (Ctor.runnerWithCommand "echo" ["hi"])
          [OptionSpec.withDir "/tmp"])).2.c.IsSuccess = true :=
  C4_StartAndWait_clean_exit (Ctor.runnerWithCommand "echo" ["hi"]) [OptionSpec.withDir "/tmp"]
    ⟨none, 100⟩ ⟨none, [104, 105, 10], []⟩ rfl rfl rfl

/-- C5.  For a handle fresh from any constructor and successfully started,
when the operating-system wait reports an error, Wait returns that error, the
visible `Stderr` is the buffer attached as the standard error of the process,
that buffer holds what the process wrote to stderr, and `IsSuccess` is
false. -/
theorem C5_Wait_reports_failure (k : Ctor) (opts : List OptionSpec)
    (o : StartOutcome) (w : WaitOutcome) (e : GoError)
    (ho : o.err = none) (hw : w.err = some e) :
    (Start o (k.build opts)).1 = none ∧
    (Wait w (Start o (k.build opts)).2).1 = some e ∧
    (Wait w (Start o (k.build opts)).2).2.c.cmd.Stderr = Writer.bytesBuffer BufRef.stderrBuf ∧
    (Wait w (Start o (k.build opts)).2).2.c.Stderr = some BufRef.stderrBuf ∧
    (Wait w (Start o (k.build opts)).2).2.stderrBuf = w.errOut ∧
    (Wait w (Start o (k.build opts)).2).2.c.IsSuccess = false := by
  have hb := build_wellBuilt k opts
  have hf := build_fresh k opts
  obtain ⟨_, _, _, f4, _, _, _, f8, _, f10⟩ := Start_frame o (k.build opts)
  have h8 : (Start o (k.build opts)).2.c.cmd.Stderr = Writer.bytesBuffer BufRef.stderrBuf :=
    f8.trans hb.2.2.2
  obtain ⟨_, b2, _, b4⟩ := Wait_buffers w (Start o (k.build opts)).2
  obtain ⟨e1, _, e3⟩ := Wait_err w (Start o (k.build opts)).2 e hw
  refine ⟨(Start_fst o _).trans ho, (Wait_fst w _).trans hw, b2.trans h8, ?_, ?_, ?_⟩
  · rw [e3, h8]
    rfl
  · rw [b4, h8, f10, hf.2.2.2.2.1]
    simp [deliver]
  · rw [e1, f4]
    exact hf.2.2.1

/-- C5 at a concrete handle and concrete answers of the operating system. -/
theorem C5_Wait_reports_failure_witness :
    (Start ⟨none, 100⟩ (Ctor.build (Ctor.runner ⟨"job-2", "ls", ["/nope"]⟩) [])).1 = none ∧
    (Wait ⟨some (GoError.os 2), [], [110, 111, 10]⟩
      (Start ⟨none, 100⟩ (Ctor.build (Ctor.runner ⟨"job-2", "ls", ["/nope"]⟩) [])).2).1
        = some (GoError.os 2) ∧
    (Wait ⟨some (GoError.os 2), [], [110, 111, 10]⟩
      (Start ⟨none, 100⟩ (Ctor.build (Ctor.runner ⟨"job-2", "ls", ["/nope"]⟩) [])).2).2.c.cmd.Stderr
        = Writer.bytesBuffer BufRef.stderrBuf ∧
    (Wait ⟨some (GoError.os 2), [], [110, 111, 10]⟩
      (Start ⟨none, 100⟩ (Ctor.build (Ctor.runner ⟨"job-2", "ls", ["/nope"]⟩) [])).2).2.c.Stderr
        = some BufRef.stderrBuf ∧
    (Wait ⟨some (GoError.os 2), [], [110, 111, 10]⟩
      (Start ⟨none, 100⟩ (Ctor.build (Ctor.runner ⟨"job-2", "ls", ["/nope"]⟩) [])).2).2.stderrBuf
        = [110, 111, 10] ∧
    (Wait ⟨some (GoError.os 2), [], [110, 111, 10]⟩
      (Start ⟨none, 100⟩ (Ctor.build (Ctor.runner ⟨"job-2", "ls", ["/nope"]⟩) [])).2).2.c.IsSuccess
        = false :=
  C5_Wait_reports_failure (Ctor.runner ⟨"job-2", "ls", ["/nope"]⟩) [] ⟨none, 100⟩
    ⟨some (GoError.os 2), [], [110, 111, 10]⟩ (GoError.os 2) rfl rfl

/-- C6.  StartAndWait is Start, then Wait, with a short circuit.  On every
handle: if Start returns an error, StartAndWait returns that error and ends in
the state Start left, the operating-system wait is not called (the record
holds as many wait calls as before), and `IsSuccess` and the visible `Stdout`
are as they were before the call; if Start returns nil, StartAndWait returns
what Wait returns on the state Start left, and ends in the same state. -/
theorem C6_StartAndWait_short_circuit (s : St) (o : StartOutcome) (w : WaitOutcome) :
    (∀ e, (Start o s).1 = some e →
      (StartAndWait o w s).1 = some e ∧
      (StartAndWait o w s).2 = (Start o s).2 ∧
      (StartAndWait o w s).2.events.count Event.osWait = s.events.count Event.osWait ∧
      (StartAndWait o w s).2.c.IsSuccess = s.c.IsSuccess ∧
      (StartAndWait o w s).2.c.Stdout = s.c.Stdout) ∧
    ((Start o s).1 = none → StartAndWait o w s = Wait w (Start o s).2) := by
  constructor
  · intro e he
    have hEq : StartAndWait o w s = Start o s := by
      rw [StartAndWait_eq, he]
      rfl
    obtain ⟨_, _, f3, f4, _⟩ := Start_frame o s
    rw [hEq]
    exact ⟨he, rfl, Start_count_osWait o s, f4, f3⟩
  · intro hn
    rw [StartAndWait_eq, hn]
    rfl

/-- C6 at a concrete handle and concrete answers of the operating system. -/
theorem C6_StartAndWait_short_circuit_witness :
    ((StartAndWait ⟨some (GoError.os 13), 0⟩ ⟨none, [1], []⟩
        (RunnerWithCommand "/etc/passwd" [] [])).1 = some (GoError.os 13) ∧
      (StartAndWait ⟨some (GoError.os 13), 0⟩ ⟨none, [1], []⟩
        (RunnerWithCommand "/etc/passwd" [] [])).2
          = (Start ⟨some (GoError.os 13), 0⟩ (RunnerWithCommand "/etc/passwd" [] [])).2 ∧
      (StartAndWait ⟨some (GoError.os 13), 0⟩ ⟨none, [1], []⟩
        (RunnerWithCommand "/etc/passwd" [] [])).2.events.count Event.osWait
          = (RunnerWithCommand "/etc/passwd" [] []).events.count Event.osWait ∧
      (StartAndWait ⟨some (GoError.os 13), 0⟩ ⟨none, [1], []⟩
        (RunnerWithCommand "/etc/passwd" [] [])).2.c.IsSuccess
          = (RunnerWithCommand "/etc/passwd" [] []).c.IsSuccess ∧
      (StartAndWait ⟨some (GoError.os 13), 0⟩ ⟨none, [1], []⟩
        (RunnerWithCommand "/etc/passwd" [] [])).2.c.Stdout
          = (RunnerWithCommand "/etc/passwd" [] []).c.Stdout) ∧
    StartAndWait ⟨none, 7⟩ ⟨some (GoError.os 1), [], [2]⟩ (RunnerWithCommand "false" [] [])
      = Wait ⟨some (GoError.os 1), [], [2]⟩
          (Start ⟨none, 7⟩ (RunnerWithCommand "false" [] [])).2 :=
  ⟨(C6_StartAndWait_short_circuit (RunnerWithCommand "/etc/passwd" [] [])
      ⟨some (GoError.os 13), 0⟩ ⟨none, [1], []⟩).1 (GoError.os 13) rfl,
   (C6_StartAndWait_short_circuit (RunnerWithCommand "false" [] [])
      ⟨none, 7⟩ ⟨some (GoError.os 1), [], [2]⟩).2 rfl⟩

/-- C7 as stated fails.  After `RunnerWithCommandStr("echo warn >&2")`, a
successful Start and a Wait whose operating-system wait reports no error while
the process wrote "warn" to stderr, `IsSuccess` is true, after Wait and after
StartAndWait alike: the text is in the attached buffer, and the visible
`Stderr`, which Wait tests, is nil. -/
theorem C7_stderr_text_still_success :
    (Start ⟨none, 100⟩ (RunnerWithCommandStr "echo warn >&2" [])).1 = none ∧
    (Wait ⟨none, [], [119, 97, 114, 110, 10]⟩
      (Start ⟨none, 100⟩ (RunnerWithCommandStr "echo warn >&2" [])).2).1 = none ∧
    (Wait ⟨none, [], [119, 97, 114, 110, 10]⟩
      (Start ⟨none, 100⟩ (RunnerWithCommandStr "echo warn >&2" [])).2).2.stderrBuf
        = [119, 97, 114, 110, 10] ∧
    ¬ ((Wait ⟨none, [], [119, 97, 114, 110, 10]⟩
      (Start ⟨none, 100⟩ (RunnerWithCommandStr "echo warn >&2" [])).2).2.c.IsSuccess = false) ∧
    ¬ ((StartAndWait ⟨none, 100⟩ ⟨none, [], [119, 97, 114, 110, 10]⟩
      (RunnerWithCommandStr "echo warn >&2" [])).2.c.IsSuccess = false) := by
  decide

/-- C7, amended.  For a handle fresh from any constructor, when the spawn
succeeds, the process writes a non-empty text to stderr and the
operating-system wait reports no error, the handle is marked successful:
`IsSuccess` is true after Wait and after StartAndWait.  The text is in the
attached stderr buffer and the visible `Stderr` stays nil. -/
theorem C7_clean_exit_with_stderr_text (k : Ctor) (opts : List OptionSpec)
    (o : StartOutcome) (w : WaitOutcome)
    (ho : o.err = none) (hw : w.err = none) (_he : w.errOut ≠ []) :
    (Wait w (Start o (k.build opts)).2).2.c.IsSuccess = true ∧
    (StartAndWait o w (k.build opts)).2.c.IsSuccess = true ∧
    (Wait w (Start o (k.build opts)).2).2.stderrBuf = w.errOut ∧
    (Wait w (Start o (k.build opts)).2).2.c.Stderr = none := by
  have hb := build_wellBuilt k opts
  have hf := build_fresh k opts
  have hS : (Start o (k.build opts)).1 = none := (Start_fst o _).trans ho
  have hE : (Start o (k.build opts)).2.c.Stderr = none :=
    (Start_ok_Stderr o _ ho).trans hf.2.1
  obtain ⟨_, _, _, _, _, _, _, f8, _, f10⟩ := Start_frame o (k.build opts)
  obtain ⟨_, _, _, b4⟩ := Wait_buffers w (Start o (k.build opts)).2
  obtain ⟨k1, _, k3⟩ := Wait_ok w (Start o (k.build opts)).2 hw
  have hI : (Wait w (Start o (k.build opts)).2).2.c.IsSuccess = true := by
    rw [k1, hE]
    rfl
  refine ⟨hI, ?_, ?_, k3.trans hE⟩
  · rw [StartAndWait_eq, hS]
    exact hI
  · rw [b4, f8, hb.2.2.2, f10, hf.2.2.2.2.1]
    simp [deliver]

/-- C7 at a concrete handle and concrete answers of the operating system. -/
theorem C7_clean_exit_with_stderr_text_witness :
    (Wait ⟨none, [], [33]⟩
      (Start ⟨none, 5⟩ (Ctor.build (Ctor.runnerWithCommandStr "make") [])).2).2.c.IsSuccess
        = true ∧
    (StartAndWait ⟨none, 5⟩ ⟨none, [], [33]⟩
      (Ctor.build (Ctor.runnerWithCommandStr "make") [])).2.c.IsSuccess = true ∧
    (Wait ⟨none, [], [33]⟩
      (Start ⟨none, 5⟩ (Ctor.build (Ctor.runnerWithCommandStr "make") [])).2).2.stderrBuf
        = [33] ∧
    (Wait ⟨none, [], [33]⟩
      (Start ⟨none, 5⟩ (Ctor.build (Ctor.runnerWithCommandStr "make") [])).2).2.c.Stderr
        = none :=
  C7_clean_exit_with_stderr_text (Ctor.runnerWithCommandStr "make") [] ⟨none, 5⟩
    ⟨none, [], [33]⟩ rfl rfl (by decide)

/-- C8.  For each of the three constructors and every list of `WithDir` and
`WithLog` options, the working directory of the handle is the argument of the
last `WithDir` of the list (the empty string, unset, when there is none), its
logger is the argument of the last `WithLog` (nil when there is none), and the
handle is the one built with no options with these two fields replaced: every
other field, the buffers and the event record are equal. -/
theorem C8_options_set_only_their_field (k : Ctor) (opts : List OptionSpec) :
    (k.build opts).c.cmd.Dir = (lastDir opts).getD "" ∧
    (k.build opts).c.log = (lastLog opts).getD none ∧
    k.build opts =
      { k.build [] with
        c := { (k.build []).c with
               log := (lastLog opts).getD none,
               cmd := { (k.build []).c.cmd with Dir := (lastDir opts).getD "" } } } := by
  cases k <;>
    simp [Ctor.build, Runner, RunnerWithCommand, RunnerWithCommandStr, getCommand_nil,
      getCommand_eq, execCommand, execCommandContext]

end cmdutil

namespace sliceutil

/-! ## Shared lemmas about the slice helpers -/

/-- InSliceIface is true exactly when some element of the slice is `==` to the
value, the element on the left. -/
theorem InSliceIface_eq_any {α : Type} (eq : α → α → Bool) (v : α) (sl : List α) :
    InSliceIface eq v sl = sl.any (fun vv => eq vv v) := by
  induction sl with
  | nil => rfl
  | cons vv sl ih =>
    rw [List.any_cons, ← ih]
    show (if eq vv v = true then true else InSliceIface eq v sl) = _
    cases h : eq vv v <;> simp

theorem InSliceIface_iff {α : Type} (eq : α → α → Bool) (v : α) (sl : List α) :
    InSliceIface eq v sl = true ↔ ∃ u ∈ sl, eq u v = true := by
  rw [InSliceIface_eq_any, List.any_eq_true]

/-- One more iteration of the loop of SliceUnique. -/
theorem SliceUnique_concat {α : Type} (eq : α → α → Bool) (l : List α) (v : α) :
    SliceUnique eq (l ++ [v]) =
      if InSliceIface eq v (SliceUnique eq l) = true then SliceUnique eq l
      else SliceUnique eq l ++ [v] := by
  have key : ∀ u : List α,
      (if (!InSliceIface eq v u) = true then u ++ [v] else u) =
        if InSliceIface eq v u = true then u else u ++ [v] := by
    intro u
    cases InSliceIface eq v u <;> rfl
  unfold SliceUnique
  rw [List.foldl_append]
  exact key _

theorem SliceUnique_sublist {α : Type} (eq : α → α → Bool) (l : List α) :
    (SliceUnique eq l).Sublist l := by
  induction l using List.reverseRecOn with
  | nil => exact List.Sublist.refl _
  | append_singleton l a ih =>
    rw [SliceUnique_concat]
    by_cases h : InSliceIface eq a (SliceUnique eq l) = true
    · rw [if_pos h]
      exact ih.trans (List.sublist_append_left l [a])
    · rw [if_neg h]
      exact List.Sublist.append ih (List.Sublist.refl [a])

/-- No element of the result of SliceUnique is `==` to a later one. -/
theorem SliceUnique_pairwise {α : Type} (eq : α → α → Bool) (l : List α) :
    (SliceUnique eq l).Pairwise (fun a b => eq a b = false) := by
  induction l using List.reverseRecOn with
  | nil => exact List.Pairwise.nil
  | append_singleton l a ih =>
    rw [SliceUnique_concat]
    by_cases h : InSliceIface eq a (SliceUnique eq l) = true
    · rw [if_pos h]
      exact ih
    · rw [if_neg h, List.pairwise_append]
      refine ⟨ih, List.pairwise_singleton _ _, ?_⟩
      intro u hu b hb
      rw [List.mem_singleton] at hb
      rw [hb]
      cases hua : eq u a with
      | false => rfl
      | true => exact absurd ((InSliceIface_iff eq a _).2 ⟨u, hu, hua⟩) h

/-- Every value of the input is in the result of SliceUnique, or an element of
the result is `==` to it. -/
theorem SliceUnique_covers {α : Type} (eq : α → α → Bool) (l : List α) :
    ∀ v ∈ l, v ∈ SliceUnique eq l ∨ ∃ u ∈ SliceUnique eq l, eq u v = true := by
  induction l using List.reverseRecOn with
  | nil => intro v hv; cases hv
  | append_singleton l a ih =>
    intro v hv
    rw [SliceUnique_concat]
    by_cases h : InSliceIface eq a (SliceUnique eq l) = true
    · rw [if_pos h]
      rcases List.mem_append.1 hv with hl | ha
      · exact ih v hl
      · rw [List.mem_singleton] at ha
        rw [ha]
        exact Or.inr ((InSliceIface_iff eq a _).1 h)
    · rw [if_neg h]
      rcases List.mem_append.1 hv with hl | ha
      · rcases ih v hl with h1 | ⟨u, hu, huv⟩
        · exact Or.inl (List.mem_append_left _ h1)
        · exact Or.inr ⟨u, List.mem_append_left _ hu, huv⟩
      · exact Or.inl (List.mem_append_right _ ha)

/-- With a transitive `==`, a value is `==` to an element of the result of
SliceUnique exactly when it is to an element of the input. -/
theorem InSliceIface_SliceUnique {α : Type} (eq : α → α → Bool)
    (htrans : ∀ a b c, eq a b = true → eq b c = true → eq a c = true)
    (l : List α) (v : α) :
    InSliceIface eq v (SliceUnique eq l) = InSliceIface eq v l := by
  apply Bool.eq_iff_iff.2
  rw [InSliceIface_iff, InSliceIface_iff]
  constructor
  · rintro ⟨u, hu, huv⟩
    exact ⟨u, (SliceUnique_sublist eq l).subset hu, huv⟩
  · rintro ⟨x, hx, hxv⟩
    rcases SliceUnique_covers eq l x hx with h1 | ⟨u, hu, hux⟩
    · exact ⟨x, h1, hxv⟩
    · exact ⟨u, hu, htrans u x v hux hxv⟩

/-- SliceUnique returns a slice as it is when none of its elements is `==` to
a later one. -/
theorem SliceUnique_of_pairwise {α : Type} (eq : α → α → Bool) (l : List α)
    (h : l.Pairwise (fun a b => eq a b = false)) : SliceUnique eq l = l := by
  induction l using List.reverseRecOn with
  | nil => rfl
  | append_singleton l a ih =>
    rw [List.pairwise_append] at h
    have hl := ih h.1
    have ha : ¬ InSliceIface eq a l = true := by
      rw [InSliceIface_iff]
      rintro ⟨u, hu, hua⟩
      have hf := h.2.2 u hu a (List.mem_singleton_self a)
      rw [hua] at hf
      cases hf
    rw [SliceUnique_concat, hl, if_neg ha]

/-- One more position of the input in `keepFirstOccurrences`. -/
theorem keepFirstOccurrences_concat {α : Type} (eq : α → α → Bool) (l : List α) (v : α) :
    keepFirstOccurrences eq (l ++ [v]) =
      if InSliceIface eq v l = true then keepFirstOccurrences eq l
      else keepFirstOccurrences eq l ++ [v] := by
  unfold keepFirstOccurrences
  rw [List.length_append, List.length_singleton, List.range_succ, List.filterMap_append]
  have hfront : List.filterMap (fun i =>
        match (l ++ [v])[i]? with
        | some x => if ((l ++ [v]).take i).any (fun u => eq u x) then none else some x
        | none => none) (List.range l.length) =
      List.filterMap (fun i =>
        match l[i]? with
        | some x => if (l.take i).any (fun u => eq u x) then none else some x
        | none => none) (List.range l.length) := by
    apply List.filterMap_congr
    intro i hi
    have hlt : i < l.length := List.mem_range.1 hi
    rw [List.getElem?_append_left hlt, List.take_append_of_le_length (Nat.le_of_lt hlt)]
  have h1 : (l ++ [v])[l.length]? = some v := by simp
  have h2 : (l ++ [v]).take l.length = l := List.take_left' rfl
  have hlast : List.filterMap (fun i =>
        match (l ++ [v])[i]? with
        | some x => if ((l ++ [v]).take i).any (fun u => eq u x) then none else some x
        | none => none) [l.length] =
      if l.any (fun u => eq u v) = true then [] else [v] := by
    simp only [List.filterMap_cons, List.filterMap_nil, h1, h2]
    cases l.any (fun u => eq u v) <;> rfl
  rw [hfront, hlast, InSliceIface_eq_any]
  cases l.any (fun u => eq u v) <;> simp

theorem SliceUnique_eq_keepFirstOccurrences {α : Type} (eq : α → α → Bool)
    (htrans : ∀ a b c, eq a b = true → eq b c = true → eq a c = true) (l : List α) :
    SliceUnique eq l = keepFirstOccurrences eq l := by
  induction l using List.reverseRecOn with
  | nil => rfl
  | append_singleton l a ih =>
    rw [SliceUnique_concat, keepFirstOccurrences_concat, ← ih,
      InSliceIface_SliceUnique eq htrans l a]

theorem GoValue_eq_symm (a b : GoValue) (h : GoValue.eq a b = true) :
    GoValue.eq b a = true := by
  cases a <;> cases b <;> simp_all [GoValue.eq]

theorem GoValue_eq_trans (a b c : GoValue) (hab : GoValue.eq a b = true)
    (hbc : GoValue.eq b c = true) : GoValue.eq a c = true := by
  cases a <;> cases b <;> cases c <;> simp_all [GoValue.eq]

theorem GoValue_eq_same (a b : GoValue) (h : GoValue.eq a b = true) : a = b := by
  cases a <;> cases b <;> simp_all [GoValue.eq]

/-- What the loop of SliceChunk returns from a loop state `i`, `i + size` with
`i ≤ len(slice)`, given enough iterations: the chunks so far followed by full
chunks only, which together are the next `m * size` elements from position
`i`, where fewer than `size` elements are left over. -/
theorem SliceChunk_loop_spec {α : Type} (slice : List α) (size : Nat)
    (hsize : 1 ≤ size) (hlen : size ≤ slice.length) :
    ∀ (fuel i : Nat) (acc : List (List α)), 1 ≤ fuel → i ≤ slice.length →
      slice.length - size + 2 ≤ fuel + i →
      ∃ chunks m, SliceChunk.loop slice size fuel i (i + size) acc = some (acc ++ chunks) ∧
        (∀ c ∈ chunks, c.length = size) ∧
        chunks.flatten = (slice.drop i).take (m * size) ∧
        i + m * size ≤ slice.length ∧ slice.length < i + m * size + size := by
  intro fuel
  induction fuel with
  | zero => intro i acc h1; omega
  | succ fuel ih =>
    intro i acc _ hi hfuel
    unfold SliceChunk.loop
    by_cases hc : i ≤ slice.length - size
    · rw [if_pos hc]
      obtain ⟨chunks, m, hloop, hall, hflat, hle, hlt⟩ :=
        ih (i + size) (acc ++ [subslice slice i (i + size)]) (by omega) (by omega) (by omega)
      refine ⟨subslice slice i (i + size) :: chunks, m + 1, ?_, ?_, ?_, by
        rw [Nat.add_mul]; omega, by rw [Nat.add_mul]; omega⟩
      · rw [hloop, List.append_assoc]
        rfl
      · intro c hcm
        rcases List.mem_cons.1 hcm with h | h
        · rw [h]
          simp only [subslice, List.length_take, List.length_drop]
          omega
        · exact hall c h
      · rw [List.flatten_cons, hflat, Nat.add_mul, Nat.one_mul, Nat.add_comm (m * size) size,
          List.take_add, List.drop_drop]
        simp [subslice]
    · rw [if_neg hc]
      exact ⟨[], 0, by simp, by simp, by simp, by omega, by omega⟩

/-- What SliceChunk returns for a size of at least 1 below the length: it
returns, every chunk has exactly `size` elements, and the chunks concatenate
to the first `len / size * size` elements of the input. -/
theorem SliceChunk_spec {α : Type} (slice : List α) (size : Nat)
    (hsize : 1 ≤ size) (hlen : size < slice.length) :
    ∃ chunks, SliceChunk slice size = some chunks ∧
      (∀ c ∈ chunks, c.length = size) ∧
      chunks.flatten = slice.take (slice.length / size * size) := by
  obtain ⟨chunks, m, hloop, hall, hflat, hle, hlt⟩ :=
    SliceChunk_loop_spec slice size hsize (Nat.le_of_lt hlen) (slice.length + 1) 0 []
      (by omega) (by omega) (by omega)
  have hm : slice.length / size = m :=
    Nat.div_eq_of_lt_le (by omega) (by rw [Nat.add_mul]; omega)
  refine ⟨chunks, ?_, hall, ?_⟩
  · unfold SliceChunk
    rw [if_neg (by omega)]
    simpa using hloop
  · rw [hflat, hm]
    rfl

/-! ## The claims about the slice helpers -/

/-- C9, evaluated on the code.  The claim has the chunks of SliceChunk
concatenate to the input for every size of at least 1.  For the slice
`[1, 2, 3]` and size 2 the loop runs once (`i = 0`), stops at `i = 2` because
`2 <= 3 - 2` fails, and returns the single chunk `[1, 2]`: the last element is
in no chunk and the concatenation is not the input. -/
theorem C9_SliceChunk_drops_remainder :
    SliceChunk [1, 2, 3] 2 = some [[1, 2]] ∧
    ¬ (∃ chunks, SliceChunk [1, 2, 3] 2 = some chunks ∧ chunks.flatten = [1, 2, 3]) ∧
    ¬ (∃ chunks, SliceChunk [1, 2, 3] 2 = some chunks ∧ 3 ∈ chunks.flatten) := by
  have h : SliceChunk [1, 2, 3] 2 = some [[1, 2]] := by decide
  refine ⟨h, ?_, ?_⟩
  · rintro ⟨chunks, hc, hj⟩
    rw [h] at hc
    cases hc
    revert hj
    decide
  · rintro ⟨chunks, hc, hj⟩
    rw [h] at hc
    cases hc
    revert hj
    decide

/-- C10.  For every slice of values on which `==` is symmetric and transitive
(as Go's `==` is on values it can compare; it need not be reflexive, so NaN is
covered): no two elements of the result of SliceUnique are `==`; a value is
`==` to an element of the result exactly when it is to an element of the
input, every element of the result is in the input, and every element of the
input is in the result or `==` to an element of it (so, where `==` holds only
between a value and itself, the result and the input have the same elements);
the result is the input with every position dropped whose value is `==` to an
earlier one (the first occurrence of each value, in input order), hence a
subsequence of the input; and SliceUnique of the result is the result. -/
theorem C10_SliceUnique_keeps_first_occurrences {α : Type} (eq : α → α → Bool)
    (hsymm : ∀ a b, eq a b = true → eq b a = true)
    (htrans : ∀ a b c, eq a b = true → eq b c = true → eq a c = true)
    (slice : List α) :
    (SliceUnique eq slice).Pairwise (fun a b => eq a b = false ∧ eq b a = false) ∧
    (∀ v, InSliceIface eq v (SliceUnique eq slice) = InSliceIface eq v slice) ∧
    (∀ v, v ∈ SliceUnique eq slice → v ∈ slice) ∧
    (∀ v, v ∈ slice →
      v ∈ SliceUnique eq slice ∨ ∃ u ∈ SliceUnique eq slice, eq u v = true) ∧
    ((∀ a b, eq a b = true → a = b) → ∀ v, v ∈ SliceUnique eq slice ↔ v ∈ slice) ∧
    SliceUnique eq slice = keepFirstOccurrences eq slice ∧
    (SliceUnique eq slice).Sublist slice ∧
    SliceUnique eq (SliceUnique eq slice) = SliceUnique eq slice := by
  refine ⟨?_, InSliceIface_SliceUnique eq htrans slice,
    fun v hv => (SliceUnique_sublist eq slice).subset hv, SliceUnique_covers eq slice, ?_,
    SliceUnique_eq_keepFirstOccurrences eq htrans slice, SliceUnique_sublist eq slice,
    SliceUnique_of_pairwise eq _ (SliceUnique_pairwise eq slice)⟩
  · refine (SliceUnique_pairwise eq slice).imp ?_
    intro a b hab
    refine ⟨hab, ?_⟩
    cases hba : eq b a with
    | false => rfl
    | true =>
      rw [hsymm b a hba] at hab
      cases hab
  · intro hsame v
    constructor
    · exact fun hv => (SliceUnique_sublist eq slice).subset hv
    · intro hv
      rcases SliceUnique_covers eq slice v hv with h1 | ⟨u, hu, huv⟩
      · exact h1
      · rw [← hsame u v huv]
        exact hu

/-- C10 on a slice that holds NaN twice, an integer twice and a string: the
result is `[NaN, 1, NaN, "a"]`, both NaN kept. -/
theorem C10_SliceUnique_keeps_first_occurrences_witness :
    SliceUnique GoValue.eq
        [GoValue.nan, GoValue.int 1, GoValue.nan, GoValue.int 1, GoValue.str "a"] =
      [GoValue.nan, GoValue.int 1, GoValue.nan, GoValue.str "a"] ∧
    (SliceUnique GoValue.eq
        [GoValue.nan, GoValue.int 1, GoValue.nan, GoValue.int 1, GoValue.str "a"]).Pairwise
      (fun a b => GoValue.eq a b = false ∧ GoValue.eq b a = false) ∧
    (∀ v, v ∈ SliceUnique GoValue.eq
        [GoValue.nan, GoValue.int 1, GoValue.nan, GoValue.int 1, GoValue.str "a"] ↔
      v ∈ [GoValue.nan, GoValue.int 1, GoValue.nan, GoValue.int 1, GoValue.str "a"]) ∧
    SliceUnique GoValue.eq
        [GoValue.nan, GoValue.int 1, GoValue.nan, GoValue.int 1, GoValue.str "a"] =
      keepFirstOccurrences GoValue.eq
        [GoValue.nan, GoValue.int 1, GoValue.nan, GoValue.int 1, GoValue.str "a"] ∧
    SliceUnique GoValue.eq (SliceUnique GoValue.eq
        [GoValue.nan, GoValue.int 1, GoValue.nan, GoValue.int 1, GoValue.str "a"]) =
      SliceUnique GoValue.eq
        [GoValue.nan, GoValue.int 1, GoValue.nan, GoValue.int 1, GoValue.str "a"] :=
  ⟨by decide,
   (C10_SliceUnique_keeps_first_occurrences GoValue.eq GoValue_eq_symm GoValue_eq_trans
      [GoValue.nan, GoValue.int 1, GoValue.nan, GoValue.int 1, GoValue.str "a"]).1,
   (C10_SliceUnique_keeps_first_occurrences GoValue.eq GoValue_eq_symm GoValue_eq_trans
      [GoValue.nan, GoValue.int 1, GoValue.nan, GoValue.int 1,
        GoValue.str "a"]).2.2.2.2.1 GoValue_eq_same,
   (C10_SliceUnique_keeps_first_occurrences GoValue.eq GoValue_eq_symm GoValue_eq_trans
      [GoValue.nan, GoValue.int 1, GoValue.nan, GoValue.int 1,
        GoValue.str "a"]).2.2.2.2.2.1,
   (C10_SliceUnique_keeps_first_occurrences GoValue.eq GoValue_eq_symm GoValue_eq_trans
      [GoValue.nan, GoValue.int 1, GoValue.nan, GoValue.int 1,
        GoValue.str "a"]).2.2.2.2.2.2.2⟩

end sliceutil

namespace cryptoutil

/-! ## The claim about the RSA helpers -/

/-- RSAEncrypt on a key that GenerateRSAKey returned: it hands the message to
`rsa.EncryptPKCS1v15` under the public key of the generated private key. -/
theorem RSAEncrypt_generated {Priv Pub : Type} (L : Lib Priv Pub) (hL : L.Lawful)
    (rnd rndE : Nat) (bits : Int) (priv : Priv) (der origData : Bytes)
    (hk : L.rsaGenerateKey rnd bits = Except.ok priv)
    (hder : L.x509MarshalPKIXPublicKey (L.publicKey priv) = Except.ok der) :
    RSAEncrypt L rndE origData
        (L.pemEncodeToMemory { Type_ := "RSA Public Key", Bytes := der }) =
      L.rsaEncryptPKCS1v15 rndE (L.publicKey priv) origData := by
  obtain ⟨block, hdec, hb⟩ := hL.pem_public der
  unfold RSAEncrypt
  rw [hdec]
  simp only [hb, hL.pkix_public rnd bits priv der hk hder]

/-- RSADecrypt on a key that GenerateRSAKey returned: it hands the ciphertext
to `rsa.DecryptPKCS1v15` under the generated private key. -/
theorem RSADecrypt_generated {Priv Pub : Type} (L : Lib Priv Pub) (hL : L.Lawful)
    (rnd rndD : Nat) (bits : Int) (priv : Priv) (ciphertext : Bytes)
    (hk : L.rsaGenerateKey rnd bits = Except.ok priv) :
    RSADecrypt L rndD ciphertext
        (L.pemEncodeToMemory
          { Type_ := "RSA Private Key", Bytes := L.x509MarshalPKCS1PrivateKey priv }) =
      L.rsaDecryptPKCS1v15 rndD priv ciphertext := by
  obtain ⟨block, hdec, hb⟩ := hL.pem_private (L.x509MarshalPKCS1PrivateKey priv)
  unfold RSADecrypt
  rw [hdec]
  simp only [hb, hL.pkcs1_private rnd bits priv hk]

/-- What a GenerateRSAKey that returns no error returns: the two PEM
encodings of one generated private key and of its public key. -/
theorem GenerateRSAKey_ok {Priv Pub : Type} (L : Lib Priv Pub) (rnd : Nat) (bits : Int)
    (privateKey publicKey : Bytes)
    (h : GenerateRSAKey L rnd bits = Except.ok (privateKey, publicKey)) :
    ∃ priv der, L.rsaGenerateKey rnd bits = Except.ok priv ∧
      L.x509MarshalPKIXPublicKey (L.publicKey priv) = Except.ok der ∧
      privateKey = L.pemEncodeToMemory
        { Type_ := "RSA Private Key", Bytes := L.x509MarshalPKCS1PrivateKey priv } ∧
      publicKey = L.pemEncodeToMemory { Type_ := "RSA Public Key", Bytes := der } := by
  unfold GenerateRSAKey at h
  cases hk : L.rsaGenerateKey rnd bits with
  | error e => simp [hk] at h
  | ok priv =>
    cases hm : L.x509MarshalPKIXPublicKey (L.publicKey priv) with
    | error e => simp [hk, hm] at h
    | ok der =>
      simp only [hk, hm, Except.ok.injEq, Prod.mk.injEq] at h
      exact ⟨priv, der, rfl, hm, h.1.symm, h.2.symm⟩

/-- The stand-in library meets the hypotheses of the round trip. -/
theorem toyLib_lawful : toyLib.Lawful where
  pem_private := fun der => ⟨_, rfl, rfl⟩
  pem_public := fun der => ⟨_, rfl, rfl⟩
  pkcs1_private := fun _ _ _ _ => rfl
  pkix_public := by
    intro rnd bits priv der _ hder
    cases hder
    rfl
  pkcs1v15 := by
    intro rnd bits priv rndE rndD msg _ hfit
    have hfit1 : msg.length + 11 ≤ priv.size := hfit
    refine ⟨rndE :: msg.map (fun b => b + priv.shift), ?_, ?_⟩
    · show (if msg.length + 11 ≤ priv.size then _ else _) = _
      rw [if_pos hfit1]
      rfl
    · show Except.ok (List.map _ (List.map _ msg)) = Except.ok msg
      rw [List.map_map]
      have hid : ((fun b => b - priv.shift) ∘ fun b => b + priv.shift) = id := by
        funext b
        simp
      rw [hid, List.map_id]
  base64 := by
    intro b
    show (if (List.map (fun x => x + 1) b).all (fun x => decide (0 < x)) then _ else _) = _
    rw [if_pos (by simp)]
    show Except.ok (List.map _ (List.map _ b)) = Except.ok b
    rw [List.map_map]
    have hid : ((fun x => x - 1) ∘ fun x : Nat => x + 1) = id := by
      funext x
      simp
    rw [hid, List.map_id]

/-- C11.  Under the hypotheses `Lib.Lawful` on the library (PEM and x509
parsing invert their marshalling, PKCS1v15 decryption inverts encryption,
base64 decoding inverts encoding): for every key pair that GenerateRSAKey
returns without error and every message of at most `pub.Size() - 11` bytes
under the generated key, RSAEncryptWithString with the public key returns no
error, and RSADecryptWithString of its result with the private key returns no
error and the message, whatever the random bytes of the three calls. -/
theorem C11_RSA_string_round_trip {Priv Pub : Type} (L : Lib Priv Pub) (hL : L.Lawful)
    (rndK rndE rndD : Nat) (bits : Int) (privateKey publicKey : Bytes) (origData : GoString)
    (hgen : GenerateRSAKey L rndK bits = Except.ok (privateKey, publicKey))
    (hshort : ∀ priv, L.rsaGenerateKey rndK bits = Except.ok priv →
      origData.length + 11 ≤ L.size (L.publicKey priv)) :
    ∃ encryptData, RSAEncryptWithString L rndE origData publicKey = Except.ok encryptData ∧
      RSADecryptWithString L rndD encryptData privateKey = Except.ok origData := by
  obtain ⟨priv, der, hk, hder, hpriv, hpub⟩ := GenerateRSAKey_ok L rndK bits _ _ hgen
  obtain ⟨c, henc, hdec⟩ := hL.pkcs1v15 rndK bits priv rndE rndD origData hk (hshort priv hk)
  refine ⟨L.base64EncodeToString c, ?_, ?_⟩
  · unfold RSAEncryptWithString
    rw [hpub, RSAEncrypt_generated L hL rndK rndE bits priv der origData hk hder, henc]
  · unfold RSADecryptWithString
    rw [hL.base64 c]
    simp only [hpriv, RSADecrypt_generated L hL rndK rndD bits priv c hk, hdec]

/-- C11 on the stand-in library: a 128-bit key pair and the message "hi". -/
theorem C11_RSA_string_round_trip_witness :
    GenerateRSAKey toyLib 7 128 = Except.ok ([45, 15, 48, 16, 7], [45, 14, 49, 16, 7]) ∧
    ∃ encryptData,
      RSAEncryptWithString toyLib 9 [104, 105] [45, 14, 49, 16, 7] = Except.ok encryptData ∧
      RSADecryptWithString toyLib 3 encryptData [45, 15, 48, 16, 7] = Except.ok [104, 105] :=
  ⟨rfl, C11_RSA_string_round_trip toyLib toyLib_lawful 7 9 3 128
    [45, 15, 48, 16, 7] [45, 14, 49, 16, 7] [104, 105] rfl
    (by
      intro priv hk
      cases hk
      decide)⟩

end cryptoutil

namespace cmdutil

/-! ## A failure is sticky -/

/-- A failed Start stores the stderr writer of the process in the visible
`Stderr`. -/
theorem Start_err_Stderr (o : StartOutcome) (s : St) (e : GoError) (h : o.err = some e) :
    (Start o s).2.c.Stderr = s.c.cmd.Stderr.asBytesBuffer := by
  unfold Start
  rw [h]
  cases hl : s.c.log <;> rfl

/-- Start keeps a visible `Stderr` that is the stderr buffer, and `IsSuccess`. -/
theorem Start_keeps_failure (o : StartOutcome) (s : St) (h : WellBuilt s)
    (hE : s.c.Stderr = some BufRef.stderrBuf) :
    (Start o s).2.c.Stderr = some BufRef.stderrBuf ∧
    (Start o s).2.c.IsSuccess = s.c.IsSuccess := by
  refine ⟨?_, (Start_frame o s).2.2.2.1⟩
  cases ho : o.err with
  | none => rw [Start_ok_Stderr o s ho, hE]
  | some e =>
    rw [Start_err_Stderr o s e ho, h.2.2.2]
    rfl

/-- Wait keeps a visible `Stderr` that is the stderr buffer, and with it
`IsSuccess`. -/
theorem Wait_keeps_failure (w : WaitOutcome) (s : St) (h : WellBuilt s)
    (hE : s.c.Stderr = some BufRef.stderrBuf) :
    (Wait w s).2.c.Stderr = some BufRef.stderrBuf ∧
    (Wait w s).2.c.IsSuccess = s.c.IsSuccess := by
  cases hw : w.err with
  | none =>
    obtain ⟨k1, _, k3⟩ := Wait_ok w s hw
    refine ⟨k3.trans hE, ?_⟩
    rw [k1, hE]
    rfl
  | some e =>
    obtain ⟨e1, _, e3⟩ := Wait_err w s e hw
    refine ⟨?_, e1⟩
    rw [e3, h.2.2.2]
    rfl

/-- Every call on a handle built by a constructor keeps a visible `Stderr`
that is the stderr buffer, and with it `IsSuccess`. -/
theorem step_keeps_failure (op : Op) (s : St) (h : WellBuilt s)
    (hE : s.c.Stderr = some BufRef.stderrBuf) :
    ∃ r s1, step op s = some (r, s1) ∧ WellBuilt s1 ∧
      s1.c.Stderr = some BufRef.stderrBuf ∧ s1.c.IsSuccess = s.c.IsSuccess := by
  cases op with
  | start o =>
    exact ⟨_, _, rfl, Start_wellBuilt o s h, Start_keeps_failure o s h hE⟩
  | wait w =>
    exact ⟨_, _, rfl, Wait_wellBuilt w s h, Wait_keeps_failure w s h hE⟩
  | startAndWait o w =>
    refine ⟨(StartAndWait o w s).1, (StartAndWait o w s).2, rfl,
      StartAndWait_wellBuilt o w s h, ?_⟩
    obtain ⟨a1, a2⟩ := Start_keeps_failure o s h hE
    rw [StartAndWait_eq]
    split
    · exact ⟨a1, a2⟩
    · obtain ⟨b1, b2⟩ := Wait_keeps_failure w _ (Start_wellBuilt o s h) a1
      exact ⟨b1, b2.trans a2⟩
  | stop g =>
    exact ⟨_, _, Stop_of_wellBuilt g s h, h, hE, rfl⟩

theorem run_keeps_failure (ops : List Op) (s : St) (h : WellBuilt s)
    (hE : s.c.Stderr = some BufRef.stderrBuf) :
    ∃ s1, run ops s = some s1 ∧ WellBuilt s1 ∧
      s1.c.Stderr = some BufRef.stderrBuf ∧ s1.c.IsSuccess = s.c.IsSuccess := by
  induction ops generalizing s with
  | nil => exact ⟨s, rfl, h, hE, rfl⟩
  | cons op ops ih =>
    obtain ⟨r, s1, hstep, h1, hE1, hI1⟩ := step_keeps_failure op s h hE
    obtain ⟨s2, hrun, h2, hE2, hI2⟩ := ih s1 h1 hE1
    exact ⟨s2, by simp [run, hstep, hrun], h2, hE2, hI2.trans hI1⟩

/-- A Start, Wait or StartAndWait that returns an error on a handle built by
a constructor leaves the stderr buffer in the visible `Stderr`. -/
theorem step_error_sets_Stderr (op : Op) (s s1 : St) (e : GoError) (h : WellBuilt s)
    (hop : ∀ g, op ≠ Op.stop g) (hfail : step op s = some (some e, s1)) :
    WellBuilt s1 ∧ s1.c.Stderr = some BufRef.stderrBuf := by
  have hS : ∀ o, (Start o s).1 = some e →
      (Start o s).2.c.Stderr = some BufRef.stderrBuf := by
    intro o ho
    rw [Start_err_Stderr o s e ((Start_fst o s).symm.trans ho), h.2.2.2]
    rfl
  have hW : ∀ w (t : St), WellBuilt t → (Wait w t).1 = some e →
      (Wait w t).2.c.Stderr = some BufRef.stderrBuf := by
    intro w t ht hw
    rw [(Wait_err w t e ((Wait_fst w t).symm.trans hw)).2.2, ht.2.2.2]
    rfl
  cases op with
  | start o =>
    simp only [step, Option.some.injEq] at hfail
    have h1 : (Start o s).1 = some e := by rw [hfail]
    have h2 : (Start o s).2 = s1 := by rw [hfail]
    rw [← h2]
    exact ⟨Start_wellBuilt o s h, hS o h1⟩
  | wait w =>
    simp only [step, Option.some.injEq] at hfail
    have h1 : (Wait w s).1 = some e := by rw [hfail]
    have h2 : (Wait w s).2 = s1 := by rw [hfail]
    rw [← h2]
    exact ⟨Wait_wellBuilt w s h, hW w s h h1⟩
  | startAndWait o w =>
    simp only [step, Option.some.injEq] at hfail
    have h1 : (StartAndWait o w s).1 = some e := by rw [hfail]
    have h2 : (StartAndWait o w s).2 = s1 := by rw [hfail]
    rw [← h2]
    refine ⟨StartAndWait_wellBuilt o w s h, ?_⟩
    rw [StartAndWait_eq] at h1 ⊢
    split at h1
    · rename_i hsome
      rw [if_pos hsome]
      exact hS o h1
    · rename_i hnone
      rw [if_neg hnone]
      exact hW w _ (Start_wellBuilt o s h) h1
  | stop g => exact absurd rfl (hop g)

/-- C12.  For a handle built by any constructor and brought to any state by
earlier calls: once a Start or a Wait (alone or inside StartAndWait) has
returned an error and `IsSuccess` is false at that moment, every later
sequence of Start, Wait, StartAndWait and Stop calls runs to its end, whatever
the operating system answers, and leaves `IsSuccess` false; the visible
`Stderr` is the stderr buffer throughout. -/
theorem C12_failure_is_sticky (k : Ctor) (opts : List OptionSpec)
    (before : List Op) (op : Op) (later : List Op) (s0 s1 : St) (e : GoError)
    (hbefore : run before (k.build opts) = some s0)
    (hop : ∀ g, op ≠ Op.stop g)
    (hfail : step op s0 = some (some e, s1))
    (hI : s1.c.IsSuccess = false) :
    ∃ s2, run later s1 = some s2 ∧ s2.c.IsSuccess = false ∧
      s2.c.Stderr = some BufRef.stderrBuf := by
  obtain ⟨t, ht, hwb⟩ := run_wellBuilt before (k.build opts) (build_wellBuilt k opts)
  rw [hbefore] at ht
  cases ht
  obtain ⟨h1, hE1⟩ := step_error_sets_Stderr op s0 s1 e hwb hop hfail
  obtain ⟨s2, hrun, _, hE2, hI2⟩ := run_keeps_failure later s1 h1 hE1
  exact ⟨s2, hrun, hI2.trans hI, hE2⟩

/-- C12 at a concrete handle: `ls /nope` is started, its Wait reports exit
status 2, and then a Start, a Wait and a StartAndWait whose operating-system
calls all report no error, and a Stop, follow. -/
theorem C12_failure_is_sticky_witness :
    ∃ s2,
      run [Op.start ⟨none, 101⟩, Op.wait ⟨none, [49], []⟩, Op.stop ⟨none, 101⟩,
           Op.startAndWait ⟨none, 102⟩ ⟨none, [50], []⟩]
        (Wait ⟨some (GoError.os 2), [], [110, 111, 10]⟩
          (Start ⟨none, 100⟩
            (Ctor.build (Ctor.runnerWithCommand "ls" ["/nope"]) [])).2).2 = some s2 ∧
      s2.c.IsSuccess = false ∧ s2.c.Stderr = some BufRef.stderrBuf :=
  C12_failure_is_sticky (Ctor.runnerWithCommand "ls" ["/nope"]) []
    [Op.start ⟨none, 100⟩] (Op.wait ⟨some (GoError.os 2), [], [110, 111, 10]⟩)
    [Op.start ⟨none, 101⟩, Op.wait ⟨none, [49], []⟩, Op.stop ⟨none, 101⟩,
     Op.startAndWait ⟨none, 102⟩ ⟨none, [50], []⟩]
    (Start ⟨none, 100⟩ (Ctor.build (Ctor.runnerWithCommand "ls" ["/nope"]) [])).2
    (Wait ⟨some (GoError.os 2), [], [110, 111, 10]⟩
      (Start ⟨none, 100⟩ (Ctor.build (Ctor.runnerWithCommand "ls" ["/nope"]) [])).2).2
    (GoError.os 2) rfl (fun _ h => Op.noConfusion h) rfl rfl

end cmdutil
